import Mathlib

/-!
Verification of the resilient bulk-synchronization engine of
`binance_historical_data` (file `data_dumper.py`).  The Python code is
shallowly embedded: calendar dates become a `Date` structure with the
lexicographic order of `datetime.date`, `dateutil.relativedelta` steps become
explicit calendar arithmetic, the download retry loop becomes a recursive
function over an environment of per-attempt outcomes together with an event
log (network attempts, sleeps, breaker bookkeeping), and the mutable dumper
object becomes an explicit state record threaded through the functions.
-/

set_option autoImplicit false

namespace BinanceDump

/-! ### Calendar model (fragment of `datetime.date` / `dateutil.relativedelta`) -/

/-- A calendar date, mirroring Python `datetime.date` (year, month, day). -/
structure Date where
  y : Nat
  m : Nat
  d : Nat
deriving DecidableEq, Repr

/-- Gregorian leap-year test, as implemented by `datetime`. -/
def isLeap (y : Nat) : Bool :=
  (y % 4 == 0 && y % 100 != 0) || y % 400 == 0

/-- Number of days of a month, as used by `datetime` / `relativedelta`. -/
def daysInMonth (y m : Nat) : Nat :=
  if m = 2 then (if isLeap y then 29 else 28)
  else if m = 4 ∨ m = 6 ∨ m = 9 ∨ m = 11 then 30
  else 31

/-- A `Date` value that `datetime.date` would accept (year at least 1,
month in 1..12, day in range for the month). -/
def Date.valid (a : Date) : Prop :=
  1 ≤ a.y ∧ 1 ≤ a.m ∧ a.m ≤ 12 ∧ 1 ≤ a.d ∧ a.d ≤ daysInMonth a.y a.m

instance (a : Date) : Decidable a.valid := by
  unfold Date.valid; infer_instance

/-- Lexicographic order on dates: exactly how Python compares `date`s. -/
def Date.le (a b : Date) : Prop :=
  a.y < b.y ∨ (a.y = b.y ∧ (a.m < b.m ∨ (a.m = b.m ∧ a.d ≤ b.d)))

/-- Strict lexicographic order on dates. -/
def Date.lt (a b : Date) : Prop :=
  a.y < b.y ∨ (a.y = b.y ∧ (a.m < b.m ∨ (a.m = b.m ∧ a.d < b.d)))

instance : LE Date := ⟨Date.le⟩

instance : LT Date := ⟨Date.lt⟩

instance (a b : Date) : Decidable (a ≤ b) :=
  inferInstanceAs (Decidable (a.y < b.y ∨ (a.y = b.y ∧ (a.m < b.m ∨ (a.m = b.m ∧ a.d ≤ b.d)))))

instance (a b : Date) : Decidable (a < b) :=
  inferInstanceAs (Decidable (a.y < b.y ∨ (a.y = b.y ∧ (a.m < b.m ∨ (a.m = b.m ∧ a.d < b.d)))))

theorem Date.le_def (a b : Date) :
    a ≤ b ↔ (a.y < b.y ∨ (a.y = b.y ∧ (a.m < b.m ∨ (a.m = b.m ∧ a.d ≤ b.d)))) := Iff.rfl

theorem Date.lt_def (a b : Date) :
    a < b ↔ (a.y < b.y ∨ (a.y = b.y ∧ (a.m < b.m ∨ (a.m = b.m ∧ a.d < b.d)))) := Iff.rfl

theorem Date.le_refl (a : Date) : a ≤ a := by
  rw [Date.le_def]; omega

theorem Date.le_trans {a b c : Date} (h1 : a ≤ b) (h2 : b ≤ c) : a ≤ c := by
  rw [Date.le_def] at *; omega

theorem Date.lt_of_lt_of_le {a b c : Date} (h1 : a < b) (h2 : b ≤ c) : a < c := by
  rw [Date.le_def] at h2; rw [Date.lt_def] at *; omega

theorem Date.le_of_lt {a b : Date} (h : a < b) : a ≤ b := by
  rw [Date.le_def]; rw [Date.lt_def] at h; omega

theorem Date.le_of_lt_of_le {a b c : Date} (h1 : a < b) (h2 : b ≤ c) : a ≤ c :=
  Date.le_of_lt (Date.lt_of_lt_of_le h1 h2)

theorem Date.le_of_le_of_lt {a b c : Date} (h1 : a ≤ b) (h2 : b < c) : a ≤ c := by
  rw [Date.lt_def] at h2; rw [Date.le_def] at *; omega

theorem Date.not_le {a b : Date} : ¬ a ≤ b ↔ b < a := by
  rw [Date.le_def, Date.lt_def]; omega

theorem Date.not_lt {a b : Date} : ¬ a < b ↔ b ≤ a := by
  rw [Date.le_def, Date.lt_def]; omega

theorem Date.lt_or_ge (a b : Date) : a < b ∨ b ≤ a := by
  rw [Date.le_def, Date.lt_def]; omega

theorem Date.le_total (a b : Date) : a ≤ b ∨ b ≤ a := by
  rw [Date.le_def, Date.le_def]; omega

theorem Date.lt_irrefl (a : Date) : ¬ a < a := by
  rw [Date.lt_def]; omega

theorem daysInMonth_pos (y m : Nat) : 1 ≤ daysInMonth y m := by
  unfold daysInMonth
  split
  · split <;> omega
  · split <;> omega

theorem daysInMonth_le (y m : Nat) : daysInMonth y m ≤ 31 := by
  unfold daysInMonth
  split
  · split <;> omega
  · split <;> omega

theorem daysInMonth_twelve (y : Nat) : daysInMonth y 12 = 31 := by
  unfold daysInMonth
  norm_num

/-- One calendar day forward (`relativedelta(days=1)`). -/
def addDays1 (a : Date) : Date :=
  if a.d < daysInMonth a.y a.m then ⟨a.y, a.m, a.d + 1⟩
  else if a.m < 12 then ⟨a.y, a.m + 1, 1⟩
  else ⟨a.y + 1, 1, 1⟩

/-- One calendar month forward (`relativedelta(months=1)`), clamping the day
to the length of the target month as `relativedelta` does. -/
def addMonths1 (a : Date) : Date :=
  if a.m < 12 then ⟨a.y, a.m + 1, min a.d (daysInMonth a.y (a.m + 1))⟩
  else ⟨a.y + 1, 1, min a.d (daysInMonth (a.y + 1) 1)⟩

/-- One calendar day backward (`relativedelta(days=1)` subtracted). -/
def predDay (a : Date) : Date :=
  if 1 < a.d then ⟨a.y, a.m, a.d - 1⟩
  else if 1 < a.m then ⟨a.y, a.m - 1, daysInMonth a.y (a.m - 1)⟩
  else ⟨a.y - 1, 12, 31⟩

/-- The step of `_create_list_dates_for_timeperiod`: one month per file for
"monthly", one day per file otherwise. -/
def stepDate (monthly : Bool) (a : Date) : Date :=
  if monthly then addMonths1 a else addDays1 a

theorem addDays1_valid {a : Date} (h : a.valid) : (addDays1 a).valid := by
  obtain ⟨h1, h2, h3, h4, h5⟩ := h
  have p1 := daysInMonth_pos a.y (a.m + 1)
  have p2 := daysInMonth_pos (a.y + 1) 1
  unfold addDays1
  split
  · unfold Date.valid; dsimp only; omega
  · split <;> (unfold Date.valid; dsimp only; omega)

theorem addMonths1_valid {a : Date} (h : a.valid) : (addMonths1 a).valid := by
  obtain ⟨h1, h2, h3, h4, h5⟩ := h
  have p1 := daysInMonth_pos a.y (a.m + 1)
  have p2 := daysInMonth_pos (a.y + 1) 1
  unfold addMonths1
  split <;> (unfold Date.valid; dsimp only; omega)

/-- Linear encoding of a date, used only as a termination / comparison
measure for valid dates. -/
def dateCode (a : Date) : Nat :=
  a.y * 372 + a.m * 31 + a.d

theorem le_iff_dateCode {a b : Date} (ha : a.valid) (hb : b.valid) :
    a ≤ b ↔ dateCode a ≤ dateCode b := by
  obtain ⟨_, ha2, ha3, ha4, ha5⟩ := ha
  obtain ⟨_, hb2, hb3, hb4, hb5⟩ := hb
  have ha6 := daysInMonth_le a.y a.m
  have hb6 := daysInMonth_le b.y b.m
  rw [Date.le_def]; unfold dateCode; omega

theorem lt_iff_dateCode {a b : Date} (ha : a.valid) (hb : b.valid) :
    a < b ↔ dateCode a < dateCode b := by
  obtain ⟨_, ha2, ha3, ha4, ha5⟩ := ha
  obtain ⟨_, hb2, hb3, hb4, hb5⟩ := hb
  have ha6 := daysInMonth_le a.y a.m
  have hb6 := daysInMonth_le b.y b.m
  rw [Date.lt_def]; unfold dateCode; omega

theorem daysInMonth_ge (y m : Nat) : 28 ≤ daysInMonth y m := by
  unfold daysInMonth
  split
  · split <;> omega
  · split <;> omega

theorem dateCode_addDays1 {a : Date} (h : a.valid) :
    dateCode a < dateCode (addDays1 a) := by
  obtain ⟨h1, h2, h3, h4, h5⟩ := h
  have h6 := daysInMonth_le a.y a.m
  unfold addDays1 dateCode
  split
  · dsimp only; omega
  · split <;> (dsimp only; omega)

theorem dateCode_addMonths1 {a : Date} (h : a.valid) :
    dateCode a < dateCode (addMonths1 a) := by
  obtain ⟨h1, h2, h3, h4, h5⟩ := h
  have h6 := daysInMonth_le a.y a.m
  have h7 := daysInMonth_ge a.y (a.m + 1)
  have h8 := daysInMonth_ge (a.y + 1) 1
  unfold addMonths1 dateCode
  split <;> (dsimp only; omega)

theorem stepDate_valid {monthly : Bool} {a : Date} (h : a.valid) :
    (stepDate monthly a).valid := by
  unfold stepDate; split
  · exact addMonths1_valid h
  · exact addDays1_valid h

theorem dateCode_stepDate {monthly : Bool} {a : Date} (h : a.valid) :
    dateCode a < dateCode (stepDate monthly a) := by
  unfold stepDate; split
  · exact dateCode_addMonths1 h
  · exact dateCode_addDays1 h

theorem lt_stepDate {monthly : Bool} {a : Date} (h : a.valid) :
    a < stepDate monthly a :=
  (lt_iff_dateCode h (stepDate_valid h)).mpr (dateCode_stepDate h)

/-! ### Date-range planner (`_create_list_dates_for_timeperiod`) -/

/-- Fuel-indexed body of the `while date_to_use <= date_end` loop of
`_create_list_dates_for_timeperiod`.  The fuel chosen by
`createListDates` is strictly larger than the number of iterations for
every pair of valid dates, so the embedding never truncates the loop. -/
def planAux (monthly : Bool) (dateEnd : Date) : Nat → Date → List Date
  | 0, _ => []
  | fuel + 1, dateToUse =>
    if dateToUse ≤ dateEnd then
      dateToUse :: planAux monthly dateEnd fuel (stepDate monthly dateToUse)
    else []

/-- The planner `_create_list_dates_for_timeperiod(date_start, date_end,
timeperiod_per_file)`: the list of dates from `date_start`, stepping one
month ("monthly") or one day ("daily"), while not past `date_end`. -/
def createListDates (dateStart dateEnd : Date) (monthly : Bool) : List Date :=
  planAux monthly dateEnd (dateCode dateEnd + 2 - dateCode dateStart) dateStart

theorem createListDates_nil {s e : Date} (monthly : Bool) (h : ¬ s ≤ e) :
    createListDates s e monthly = [] := by
  unfold createListDates
  cases hf : dateCode e + 2 - dateCode s with
  | zero => rfl
  | succ n => unfold planAux; rw [if_neg h]

theorem planAux_props (monthly : Bool) (e : Date) (he : e.valid) :
    ∀ fuel s, s.valid → dateCode e + 2 - dateCode s ≤ fuel →
      ((¬ s ≤ e → planAux monthly e fuel s = []) ∧
       (s ≤ e → (planAux monthly e fuel s).head? = some s) ∧
       (∀ x ∈ planAux monthly e fuel s, s ≤ x ∧ x ≤ e ∧ x.valid) ∧
       List.Chain' (fun a b => b = stepDate monthly a) (planAux monthly e fuel s) ∧
       List.Chain' (fun a b => a < b) (planAux monthly e fuel s) ∧
       (∀ l, (planAux monthly e fuel s).getLast? = some l → ¬ stepDate monthly l ≤ e)) := by
  intro fuel
  induction fuel with
  | zero =>
    intro s hs hb
    have hcode : dateCode e < dateCode s := by omega
    have hne : ¬ s ≤ e := by
      intro hle
      exact absurd ((le_iff_dateCode hs he).mp hle) (by omega)
    refine ⟨fun _ => rfl, fun hle => absurd hle hne, ?_, ?_, ?_, ?_⟩
    · intro x hx; simp [planAux] at hx
    · simp [planAux]
    · simp [planAux]
    · intro l hl; simp [planAux] at hl
  | succ fuel ih =>
    intro s hs hb
    by_cases hse : s ≤ e
    · have hsv : (stepDate monthly s).valid := stepDate_valid hs
      have hcode : dateCode s < dateCode (stepDate monthly s) := dateCode_stepDate hs
      obtain ⟨ih1, ih2, ih3, ih4, ih5, ih6⟩ := ih (stepDate monthly s) hsv (by omega)
      have hunf : planAux monthly e (fuel + 1) s =
          s :: planAux monthly e fuel (stepDate monthly s) := by
        simp only [planAux]; rw [if_pos hse]
      rw [hunf]
      have hhead : ∀ b, (planAux monthly e fuel (stepDate monthly s)).head? = some b →
          b = stepDate monthly s := by
        intro b hbmem
        by_cases hse' : stepDate monthly s ≤ e
        · rw [ih2 hse'] at hbmem; exact (Option.some_inj.mp hbmem).symm
        · rw [ih1 hse'] at hbmem; simp at hbmem
      refine ⟨fun hc => absurd hse hc, fun _ => rfl, ?_, ?_, ?_, ?_⟩
      · intro x hx
        rcases List.mem_cons.mp hx with hx | hx
        · subst hx; exact ⟨Date.le_refl x, hse, hs⟩
        · obtain ⟨hx1, hx2, hx3⟩ := ih3 x hx
          exact ⟨Date.le_of_lt_of_le (lt_stepDate hs) hx1, hx2, hx3⟩
      · rw [List.chain'_cons']
        refine ⟨?_, ih4⟩
        intro b hb'
        exact hhead b hb'
      · rw [List.chain'_cons']
        refine ⟨?_, ih5⟩
        intro b hb'
        rw [hhead b hb']
        exact lt_stepDate hs
      · intro l hl
        cases hrest : planAux monthly e fuel (stepDate monthly s) with
        | nil =>
          rw [hrest] at hl
          simp at hl
          subst hl
          intro hcontra
          have hh := ih2 hcontra
          rw [hrest] at hh
          simp at hh
        | cons r t =>
          rw [hrest] at hl
          rw [List.getLast?_cons_cons] at hl
          rw [← hrest] at hl
          exact ih6 l hl
    · have hunf : planAux monthly e (fuel + 1) s = [] := by
        unfold planAux; rw [if_neg hse]
      rw [hunf]
      refine ⟨fun _ => rfl, fun hle => absurd hle hse, ?_, ?_, ?_, ?_⟩
      · intro x hx; simp at hx
      · simp
      · simp
      · intro l hl; simp at hl

/-- Specification of the planner for valid inputs: empty iff swapped, head is
the start date, all elements lie in the interval and are valid, consecutive
elements are one calendar step apart, the list is strictly increasing, and
the successor of the last element is past the end date. -/
theorem createListDates_spec (s e : Date) (monthly : Bool) (hs : s.valid) (he : e.valid) :
    ((¬ s ≤ e → createListDates s e monthly = []) ∧
     (s ≤ e → (createListDates s e monthly).head? = some s) ∧
     (∀ x ∈ createListDates s e monthly, s ≤ x ∧ x ≤ e ∧ x.valid) ∧
     List.Chain' (fun a b => b = stepDate monthly a) (createListDates s e monthly) ∧
     List.Chain' (fun a b => a < b) (createListDates s e monthly) ∧
     (∀ l, (createListDates s e monthly).getLast? = some l → ¬ stepDate monthly l ≤ e)) :=
  planAux_props monthly e he (dateCode e + 2 - dateCode s) s hs (Nat.le_refl _)

/-! ### Constructor validation and filenames (`__init__`, `create_filename`) -/

/-- Python tuple `_ASSET_CLASSES + _FUTURES_ASSET_CLASSES`. -/
def assetClassesAll : List String := ["spot", "um", "cm"]

/-- The dictionary `_DICT_DATA_TYPES_BY_ASSET`. -/
def dataTypesByAsset (assetClass : String) : List String :=
  if assetClass = "spot" then ["aggTrades", "klines", "trades"]
  else if assetClass = "cm" then
    ["aggTrades", "fundingRate", "klines", "trades", "indexPriceKlines",
     "markPriceKlines", "premiumIndexKlines"]
  else if assetClass = "um" then
    ["aggTrades", "bookDepth", "bookTicker", "fundingRate", "indexPriceKlines",
     "klines", "liquidationSnapshot", "markPriceKlines", "metrics",
     "premiumIndexKlines", "trades"]
  else []

/-- The tuple `_DATA_FREQUENCY_NEEDED_FOR_TYPE` (the kline family). -/
def dataFrequencyNeededForType : List String :=
  ["klines", "indexPriceKlines", "markPriceKlines", "premiumIndexKlines"]

/-- The tuple `_DATA_FREQUENCY_ENUM`. -/
def dataFrequencyEnum : List String :=
  ["1s", "1m", "3m", "5m", "15m", "30m", "1h", "2h", "4h", "6h", "8h",
   "12h", "1d", "3d", "1w", "1mo"]

/-- The configuration stored on the dumper object by `__init__`. -/
structure DumperConfig where
  assetClass : String
  dataType : String
  dataFrequency : String
  maxConcurrentDownloads : Nat
deriving DecidableEq, Repr

/-- The validation and field initialisation performed by
`BinanceDataDumper.__init__` (the `ValueError`s become `Except.error`). -/
def initDumper (assetClass dataType dataFrequency : String)
    (maxConcurrentDownloads : Option Nat) : Except String DumperConfig :=
  if assetClass ∉ assetClassesAll then Except.error ("Unknown asset class")
  else if dataType ∉ dataTypesByAsset assetClass then Except.error ("Unknown data type")
  else if dataType ∈ dataFrequencyNeededForType ∧ dataFrequency ∉ dataFrequencyEnum then
    Except.error ("Unknown data frequency")
  else
    Except.ok
      ⟨assetClass, dataType,
       if dataType ∈ dataFrequencyNeededForType then dataFrequency else "",
       match maxConcurrentDownloads with
       | none => if dataType = "trades" then 1 else 5
       | some n => n⟩

/-- Zero-padded two-digit rendering, as `strftime` "%m" / "%d". -/
def pad2 (n : Nat) : String :=
  if n < 10 then "0" ++ toString n else toString n

/-- Zero-padded four-digit rendering, as `strftime` "%Y". -/
def pad4 (n : Nat) : String :=
  if n < 10 then "000" ++ toString n
  else if n < 100 then "00" ++ toString n
  else if n < 1000 then "0" ++ toString n
  else toString n

/-- The format `strftime("%Y-%m")`. -/
def fmtYM (a : Date) : String :=
  pad4 a.y ++ "-" ++ pad2 a.m

/-- The format `strftime("%Y-%m-%d")`. -/
def fmtYMD (a : Date) : String :=
  pad4 a.y ++ "-" ++ pad2 a.m ++ "-" ++ pad2 a.d

/-- The method `create_filename`: `ticker-<freq-or-type>-<date>.<extension>`,
where the frequency is used only when it is non-empty (Python truthiness). -/
def createFilename (cfg : DumperConfig) (ticker : String) (dateObj : Date)
    (monthly : Bool) (extension : String) : String :=
  ticker ++ "-" ++
    (if cfg.dataFrequency ≠ "" then cfg.dataFrequency else cfg.dataType) ++ "-" ++
    (if monthly then fmtYM dateObj else fmtYMD dateObj) ++ "." ++ extension

/-! ### Local inventory and the per-ticker pending set
(`get_all_dates_with_data_for_ticker`, `_download_data_for_1_ticker`) -/

/-- The method `get_all_dates_with_data_for_ticker`: enumerate candidate
dates from 2017-01-01 up to today with the requested granularity and keep
those whose csv file exists locally.  The local directory content is
modelled by the list `files` of filenames present in the ticker's folder. -/
def getAllDatesWithData (cfg : DumperConfig) (today : Date) (files : List String)
    (ticker : String) (monthly : Bool) : List Date :=
  (createListDates ⟨2017, 1, 1⟩ today monthly).filter
    (fun dateObj => decide (createFilename cfg ticker dateObj monthly "csv" ∈ files))

/-- The date-selection logic of `_download_data_for_1_ticker`: clamp the
start date to the ticker's minimum start date, plan the dates, and unless
`is_to_update_existing` subtract the dates whose data is already saved. -/
def pendingDates (cfg : DumperConfig) (today : Date) (files : List String)
    (ticker : String) (minStartDate dateStart dateEnd : Date) (monthly : Bool)
    (isToUpdateExisting : Bool) : List Date :=
  let dateStart1 := if dateStart < minStartDate then minStartDate else dateStart
  let listDates := createListDates dateStart1 dateEnd monthly
  let listDatesWithData := getAllDatesWithData cfg today files ticker monthly
  if isToUpdateExisting then listDates
  else listDates.filter (fun dateObj => decide (dateObj ∉ listDatesWithData))

/-- The filenames produced by a run that saved every planned date (the zip
archives are extracted to csv files carrying the same base name). -/
def savedFiles (cfg : DumperConfig) (ticker : String) (dates : List Date)
    (monthly : Bool) : List String :=
  dates.map (fun dateObj => createFilename cfg ticker dateObj monthly "csv")

/-! ### The monthly/daily split of `dump_data` -/

/-- The two granularity passes launched by `dump_data` for one ticker, given
the already clamped interval `[dateStart, dateEnd]`: the monthly pass covers
`[dateStart, firstOfEndMonth - 1 day]` and runs only for non-"metrics" data
types when that upper bound is strictly after `dateStart`; the daily pass
covers `[firstOfEndMonth, dateEnd]` (the whole interval for "metrics"). -/
def monthlyPassRange (dataType : String) (dateStart dateEnd : Date) :
    Option (Date × Date) :=
  let boundary : Date := ⟨dateEnd.y, dateEnd.m, 1⟩
  if dataType ≠ "metrics" ∧ dateStart < predDay boundary then
    some (dateStart, predDay boundary)
  else none

/-- The daily pass interval of `dump_data` (see `monthlyPassRange`). -/
def dailyPassRange (dataType : String) (dateStart dateEnd : Date) : Date × Date :=
  if dataType = "metrics" then (dateStart, dateEnd)
  else (⟨dateEnd.y, dateEnd.m, 1⟩, dateEnd)

/-- Membership of a date in the (optional) monthly pass interval. -/
def inMonthlyPass (dataType : String) (dateStart dateEnd d : Date) : Prop :=
  match monthlyPassRange dataType dateStart dateEnd with
  | some r => r.1 ≤ d ∧ d ≤ r.2
  | none => False

/-- Membership of a date in the daily pass interval. -/
def inDailyPass (dataType : String) (dateStart dateEnd d : Date) : Prop :=
  (dailyPassRange dataType dateStart dateEnd).1 ≤ d ∧
    d ≤ (dailyPassRange dataType dateStart dateEnd).2

/-- Boolean companion of `inMonthlyPass`, used for decidability. -/
def inMonthlyPassB (dataType : String) (dateStart dateEnd d : Date) : Bool :=
  match monthlyPassRange dataType dateStart dateEnd with
  | some r => decide (r.1 ≤ d) && decide (d ≤ r.2)
  | none => false

instance (dataType : String) (dateStart dateEnd d : Date) :
    Decidable (inMonthlyPass dataType dateStart dateEnd d) :=
  decidable_of_iff (inMonthlyPassB dataType dateStart dateEnd d = true) (by
    unfold inMonthlyPassB inMonthlyPass
    cases monthlyPassRange dataType dateStart dateEnd <;> simp)

instance (dataType : String) (dateStart dateEnd d : Date) :
    Decidable (inDailyPass dataType dateStart dateEnd d) := by
  unfold inDailyPass
  exact inferInstanceAs (Decidable (_ ∧ _))

/-! ### Remote floor date (`get_min_start_date_for_ticker`) -/

/-- First day of the month of `today`: the initial `min_date` of
`get_min_start_date_for_ticker`. -/
def firstOfMonth (today : Date) : Date := ⟨today.y, today.m, 1⟩

/-- The monthly scan loop of `get_min_start_date_for_ticker`: lower the
running minimum and remember whether any date was strictly below it. -/
def foldMinFound (start : Date) (dates : List Date) : Bool × Date :=
  dates.foldl
    (fun acc dateObj => if dateObj < acc.2 then (true, dateObj) else acc)
    (false, start)

/-- The daily scan loop of `get_min_start_date_for_ticker` (no found flag). -/
def foldMin (start : Date) (dates : List Date) : Date :=
  dates.foldl (fun acc dateObj => if dateObj < acc then dateObj else acc) start

/-- The method `get_min_start_date_for_ticker`.  The two remote listings are
inputs (already parsed into dates); `Except.error` models the listing call
raising, which the method catches, leaving the running minimum unchanged. -/
def getMinStartDateForTicker (today : Date)
    (monthlyListing dailyListing : Except Unit (List Date)) : Date :=
  let minDate := firstOfMonth today
  match monthlyListing with
  | Except.error _ => minDate
  | Except.ok ms =>
    let r := foldMinFound minDate ms
    if r.1 then r.2
    else
      match dailyListing with
      | Except.error _ => r.2
      | Except.ok ds => foldMin r.2 ds

/-! ### Circuit breaker and download retry loop
(`_check_circuit_breaker`, `_record_download_failure`,
`_record_download_success`, `_download_raw_file`) -/

/-- `_circuit_breaker_threshold`. -/
def cbThreshold : Nat := 5

/-- `_circuit_breaker_reset_time` (seconds). -/
def cbResetTime : Nat := 300

/-- `max_retries` default of `_download_raw_file`. -/
def maxRetriesDefault : Nat := 3

/-- The mutable counters of the dumper that the downloader touches, as one
explicit state record (the request-timing list is tracked only by its
length, and the wall-clock start marker is omitted: no claim mentions them). -/
structure DState where
  cbFailures : Nat
  cbLastFailure : Option Nat
  cbBroken : Bool
  requestCount : Nat
  successfulRequests : Nat
  failedRequests : Nat
  notFoundRequests : Nat
  activeConnections : Nat
  maxConcurrentConnections : Nat
  bytesDownloaded : Nat
deriving DecidableEq, Repr

/-- The counter values set by `__init__`. -/
def initState : DState := ⟨0, none, false, 0, 0, 0, 0, 0, 0, 0⟩

/-- Observable side effects of one `_download_raw_file` call, in order:
network attempts (`urlopen`), `time.sleep` calls, and the circuit-breaker
bookkeeping calls with their `error_type` tag. -/
inductive Ev where
  | netAttempt : Ev
  | sleepFor : Nat → Ev
  | recordFail : String → Ev
  | recordOk : Ev
deriving DecidableEq, Repr

/-- What the network returns for one attempt: a successful body of some
size, an HTTP error with its status code, a `URLError` whose reason string
matches (or not) the ssl/eof/protocol pattern, or any other exception whose
message matches (or not) the ssl/connection/reset pattern. -/
inductive AttemptOutcome where
  | ok : Nat → AttemptOutcome
  | httpErr : Nat → AttemptOutcome
  | urlErr : Bool → AttemptOutcome
  | exc : Bool → AttemptOutcome
deriving DecidableEq, Repr

/-- `_check_circuit_breaker`: reports whether the breaker is open, resetting
it first when the cooldown has elapsed since the last recorded failure
(`now` is the current `time.time()`; a `0` timestamp is falsy in Python). -/
def checkCircuitBreaker (st : DState) (now : Nat) : Bool × DState :=
  if st.cbBroken = false then (false, st)
  else
    match st.cbLastFailure with
    | some t =>
      if t ≠ 0 then
        if cbResetTime ≤ now - t then
          (false, { st with cbBroken := false, cbFailures := 0 })
        else (true, st)
      else (true, st)
    | none => (true, st)

/-- `_record_download_failure`: bump the consecutive-failure counter, stamp
the failure time, and open the breaker at the threshold. -/
def recordDownloadFailure (st : DState) (now : Nat) : DState :=
  let st1 := { st with cbFailures := st.cbFailures + 1, cbLastFailure := some now }
  if cbThreshold ≤ st1.cbFailures ∧ st1.cbBroken = false then
    { st1 with cbBroken := true }
  else st1

/-- `_record_download_success`: reset the consecutive-failure counter. -/
def recordDownloadSuccess (st : DState) : DState :=
  if 0 < st.cbFailures then { st with cbFailures := 0 } else st

/-- Entry bookkeeping of one loop iteration of `_download_raw_file`:
connection gauge, request counter, peak-concurrency watermark. -/
def enterAttempt (st : DState) : DState :=
  { st with activeConnections := st.activeConnections + 1,
            requestCount := st.requestCount + 1,
            maxConcurrentConnections :=
              max st.maxConcurrentConnections (st.activeConnections + 1) }

/-- The `self._active_connections -= 1` of every `except` branch. -/
def decActive (st : DState) : DState :=
  { st with activeConnections := st.activeConnections - 1 }

/-- The `self._failed_requests += 1` bookkeeping. -/
def addFailed (st : DState) : DState :=
  { st with failedRequests := st.failedRequests + 1 }

/-- The `for attempt in range(max_retries)` loop of `_download_raw_file`.
`attempt` is the current loop index, the second `Nat` argument the number of
iterations left; `env attempt` is what the network does on that attempt.
Returns the Python return value (1 success, 0 otherwise), the final state
and the accumulated event log. -/
def runAttempts (env : Nat → AttemptOutcome) (now : Nat) (maxRetries : Nat) :
    Nat → Nat → DState → List Ev → Nat × DState × List Ev
  | _, 0, st, evs => (0, addFailed st, evs)
  | attempt, remaining + 1, st, evs =>
    let st := enterAttempt st
    let evs := evs ++ [Ev.netAttempt]
    match env attempt with
    | AttemptOutcome.ok nbytes =>
      let st := { st with bytesDownloaded := st.bytesDownloaded + nbytes }
      let st := recordDownloadSuccess st
      let st := { st with successfulRequests := st.successfulRequests + 1,
                          activeConnections := st.activeConnections - 1 }
      (1, st, evs ++ [Ev.recordOk])
    | AttemptOutcome.httpErr code =>
      let st := decActive st
      if code = 404 then
        (0, { st with notFoundRequests := st.notFoundRequests + 1 }, evs)
      else if code = 418 then
        let st := recordDownloadFailure st now
        let st := addFailed st
        let st := { st with cbBroken := true, cbFailures := cbThreshold }
        (0, st, evs ++ [Ev.recordFail ("IP_BAN_418")])
      else if code = 403 then
        let st := recordDownloadFailure st now
        let evs := evs ++ [Ev.recordFail ("WAF_403")]
        if attempt < maxRetries - 1 then
          runAttempts env now maxRetries (attempt + 1) remaining st
            (evs ++ [Ev.sleepFor (2 ^ attempt * 5)])
        else (0, addFailed st, evs)
      else if code = 429 then
        let st := recordDownloadFailure st now
        let evs := evs ++ [Ev.recordFail ("RATE_LIMIT_429")]
        if attempt < maxRetries - 1 then
          runAttempts env now maxRetries (attempt + 1) remaining st
            (evs ++ [Ev.sleepFor (2 ^ attempt * 5)])
        else (0, addFailed st, evs)
      else if code = 503 then
        let st := recordDownloadFailure st now
        let evs := evs ++ [Ev.recordFail ("CLOUDFRONT_503")]
        if attempt < maxRetries - 1 then
          runAttempts env now maxRetries (attempt + 1) remaining st
            (evs ++ [Ev.sleepFor (2 ^ attempt * 5)])
        else (0, addFailed st, evs)
      else
        if attempt < maxRetries - 1 then
          runAttempts env now maxRetries (attempt + 1) remaining st
            (evs ++ [Ev.sleepFor (2 ^ attempt)])
        else (0, addFailed st, evs)
    | AttemptOutcome.urlErr tlsMatched =>
      let st := decActive st
      if tlsMatched then
        let st := recordDownloadFailure st now
        let evs := evs ++ [Ev.recordFail ("SSL_ERROR_RATE_LIMIT")]
        if attempt < maxRetries - 1 then
          runAttempts env now maxRetries (attempt + 1) remaining st
            (evs ++ [Ev.sleepFor (2 ^ attempt * 5)])
        else (0, addFailed st, evs)
      else
        if attempt < maxRetries - 1 then
          runAttempts env now maxRetries (attempt + 1) remaining st
            (evs ++ [Ev.sleepFor (2 ^ attempt)])
        else (0, addFailed st, evs)
    | AttemptOutcome.exc connMatched =>
      let st := decActive st
      let st := if connMatched then recordDownloadFailure st now else st
      let evs := if connMatched then evs ++ [Ev.recordFail ("CONNECTION_ERROR")] else evs
      if attempt < maxRetries - 1 then
        runAttempts env now maxRetries (attempt + 1) remaining st
          (evs ++ [Ev.sleepFor (2 ^ attempt)])
      else (0, addFailed st, evs)

/-- `_download_raw_file`: check the circuit breaker (returning 0 at once,
with no network attempt, when it is open), otherwise run the retry loop. -/
def downloadRawFile (st : DState) (now : Nat) (env : Nat → AttemptOutcome)
    (maxRetries : Nat) : Nat × DState × List Ev :=
  let c := checkCircuitBreaker st now
  if c.1 then (0, c.2, [])
  else runAttempts env now maxRetries 0 maxRetries c.2 []

/-- The sleep durations recorded in an event log, in order. -/
def sleepsOf (evs : List Ev) : List Nat :=
  evs.filterMap (fun e => match e with | Ev.sleepFor n => some n | _ => none)

/-- How many circuit-breaker failures an event log records. -/
def failRecordCount (evs : List Ev) : Nat :=
  (evs.filter (fun e => match e with | Ev.recordFail _ => true | _ => false)).length

/-- How many network attempts an event log contains. -/
def netAttemptCount (evs : List Ev) : Nat :=
  (evs.filter (fun e => match e with | Ev.netAttempt => true | _ => false)).length

/-- Iterated `_record_download_failure` (`n` consecutive recorded failures
at time `now`). -/
def recordNFailures (st : DState) (now : Nat) : Nat → DState
  | 0 => st
  | n + 1 => recordDownloadFailure (recordNFailures st now n) now

/-- The error classes that `_download_raw_file` retries with the large
`(2 ** attempt) * 5` backoff: HTTP 403, 429, 503 and `URLError`s whose
reason matches the ssl/eof/protocol pattern. -/
def rateLimitClassA (o : AttemptOutcome) : Prop :=
  o = AttemptOutcome.httpErr 403 ∨ o = AttemptOutcome.httpErr 429 ∨
    o = AttemptOutcome.httpErr 503 ∨ o = AttemptOutcome.urlErr true

theorem checkCircuitBreaker_closed (st : DState) (now : Nat)
    (hb : st.cbBroken = false) : checkCircuitBreaker st now = (false, st) := by
  unfold checkCircuitBreaker
  rw [if_pos hb]

theorem downloadRawFile_closed (st : DState) (now : Nat)
    (env : Nat → AttemptOutcome) (maxRetries : Nat) (hb : st.cbBroken = false) :
    downloadRawFile st now env maxRetries =
      runAttempts env now maxRetries 0 maxRetries st [] := by
  unfold downloadRawFile
  rw [checkCircuitBreaker_closed st now hb]
  simp

theorem recordDownloadFailure_failedRequests (st : DState) (now : Nat) :
    (recordDownloadFailure st now).failedRequests = st.failedRequests := by
  unfold recordDownloadFailure
  dsimp only
  split <;> rfl

theorem recordDownloadFailure_notFoundRequests (st : DState) (now : Nat) :
    (recordDownloadFailure st now).notFoundRequests = st.notFoundRequests := by
  unfold recordDownloadFailure
  dsimp only
  split <;> rfl

theorem runAttempts_404 (env : Nat → AttemptOutcome)
    (now maxRetries attempt remaining r : Nat) (hrem : remaining = r + 1)
    (st : DState) (evs : List Ev) (henv : env attempt = AttemptOutcome.httpErr 404) :
    runAttempts env now maxRetries attempt remaining st evs =
      (0, { decActive (enterAttempt st) with
              notFoundRequests := (decActive (enterAttempt st)).notFoundRequests + 1 },
       evs ++ [Ev.netAttempt]) := by
  subst hrem
  simp [runAttempts, henv]

theorem runAttempts_418 (env : Nat → AttemptOutcome)
    (now maxRetries attempt remaining r : Nat) (hrem : remaining = r + 1)
    (st : DState) (evs : List Ev) (henv : env attempt = AttemptOutcome.httpErr 418) :
    runAttempts env now maxRetries attempt remaining st evs =
      (0, { addFailed (recordDownloadFailure (decActive (enterAttempt st)) now) with
              cbBroken := true, cbFailures := cbThreshold },
       evs ++ [Ev.netAttempt, Ev.recordFail ("IP_BAN_418")]) := by
  subst hrem
  simp [runAttempts, henv]

/-- The success exit path of one `_download_raw_file` iteration. -/
def successExit (st : DState) (nbytes : Nat) : DState :=
  let st1 := { enterAttempt st with
                 bytesDownloaded := (enterAttempt st).bytesDownloaded + nbytes }
  let st2 := recordDownloadSuccess st1
  { st2 with successfulRequests := st2.successfulRequests + 1,
             activeConnections := st2.activeConnections - 1 }

theorem runAttempts_ok (env : Nat → AttemptOutcome)
    (now maxRetries attempt remaining r : Nat) (hrem : remaining = r + 1)
    (st : DState) (evs : List Ev) (nbytes : Nat)
    (henv : env attempt = AttemptOutcome.ok nbytes) :
    runAttempts env now maxRetries attempt remaining st evs =
      (1, successExit st nbytes, evs ++ [Ev.netAttempt, Ev.recordOk]) := by
  subst hrem
  simp [runAttempts, henv, successExit]

/-- The `error_type` tag passed to `_record_download_failure` for each
rate-limit error class. -/
def rateTag (o : AttemptOutcome) : String :=
  if o = AttemptOutcome.httpErr 403 then "WAF_403"
  else if o = AttemptOutcome.httpErr 429 then "RATE_LIMIT_429"
  else if o = AttemptOutcome.httpErr 503 then "CLOUDFRONT_503"
  else "SSL_ERROR_RATE_LIMIT"

theorem runAttempts_rateLimit_step (env : Nat → AttemptOutcome)
    (now maxRetries attempt remaining r : Nat) (hrem : remaining = r + 1)
    (st : DState) (evs : List Ev)
    (o : AttemptOutcome) (ho : rateLimitClassA o) (henv : env attempt = o)
    (hlt : attempt < maxRetries - 1) :
    runAttempts env now maxRetries attempt remaining st evs =
      runAttempts env now maxRetries (attempt + 1) r
        (recordDownloadFailure (decActive (enterAttempt st)) now)
        (evs ++ [Ev.netAttempt, Ev.recordFail (rateTag o),
                 Ev.sleepFor (2 ^ attempt * 5)]) := by
  subst hrem
  rcases ho with h | h | h | h <;> subst h <;> simp [runAttempts, henv, hlt, rateTag]

theorem runAttempts_rateLimit_last (env : Nat → AttemptOutcome)
    (now maxRetries attempt remaining r : Nat) (hrem : remaining = r + 1)
    (st : DState) (evs : List Ev)
    (o : AttemptOutcome) (ho : rateLimitClassA o) (henv : env attempt = o)
    (hge : ¬ attempt < maxRetries - 1) :
    runAttempts env now maxRetries attempt remaining st evs =
      (0, addFailed (recordDownloadFailure (decActive (enterAttempt st)) now),
       evs ++ [Ev.netAttempt, Ev.recordFail (rateTag o)]) := by
  subst hrem
  rcases ho with h | h | h | h <;> subst h <;> simp [runAttempts, henv, hge, rateTag]

theorem runAttempts_connReset_step (env : Nat → AttemptOutcome)
    (now maxRetries attempt remaining r : Nat) (hrem : remaining = r + 1)
    (st : DState) (evs : List Ev)
    (henv : env attempt = AttemptOutcome.exc true) (hlt : attempt < maxRetries - 1) :
    runAttempts env now maxRetries attempt remaining st evs =
      runAttempts env now maxRetries (attempt + 1) r
        (recordDownloadFailure (decActive (enterAttempt st)) now)
        (evs ++ [Ev.netAttempt, Ev.recordFail ("CONNECTION_ERROR"),
                 Ev.sleepFor (2 ^ attempt)]) := by
  subst hrem
  simp [runAttempts, henv, hlt]

theorem runAttempts_evs_isPrefix (env : Nat → AttemptOutcome) (now maxRetries : Nat) :
    ∀ remaining attempt (st : DState) (evs : List Ev),
      evs <+: (runAttempts env now maxRetries attempt remaining st evs).2.2 := by
  intro remaining
  induction remaining with
  | zero =>
    intro attempt st evs
    exact List.prefix_refl evs
  | succ r ih =>
    intro attempt st evs
    cases henv : env attempt <;>
      simp only [runAttempts, henv] <;>
      (try split_ifs) <;>
      first
        | (simp only [List.append_assoc]; exact List.prefix_append _ _)
        | exact List.IsPrefix.trans
            (by simp only [List.append_assoc]; exact List.prefix_append _ _)
            (ih _ _ _)

theorem runAttempts_net_first (env : Nat → AttemptOutcome)
    (now maxRetries attempt remaining r : Nat) (hrem : remaining = r + 1) (st : DState) :
    [Ev.netAttempt] <+: (runAttempts env now maxRetries attempt remaining st []).2.2 := by
  subst hrem
  cases henv : env attempt <;>
    simp only [runAttempts, henv] <;>
    (try split_ifs) <;>
    first
      | (simp only [List.nil_append, List.append_assoc]; exact List.prefix_append _ _)
      | exact List.IsPrefix.trans
          (by simp only [List.nil_append, List.append_assoc]; exact List.prefix_append _ _)
          (runAttempts_evs_isPrefix env now maxRetries r (attempt + 1) _ _)

theorem recordNFailures_five (st : DState) (now : Nat)
    (hb : st.cbBroken = false) (hz : st.cbFailures = 0) :
    recordNFailures st now cbThreshold =
      { st with cbFailures := 5, cbLastFailure := some now, cbBroken := true } := by
  have h0 : cbThreshold = 5 := rfl
  rw [h0]
  simp [recordNFailures, recordDownloadFailure, cbThreshold, hz, hb]

/-- C1: after the failure threshold (5) of consecutive recorded download
failures the circuit breaker is open, the very next `_download_raw_file` call
returns 0 immediately with no network attempt (and this holds for every call
made while the cooldown of 300 seconds since the last recorded failure has
not elapsed); once at least the cooldown has elapsed, the next
`_check_circuit_breaker` closes the breaker, resetting the failure counter to
0, and that download call performs a network attempt again. -/
theorem C1_circuit_breaker_lifecycle (st0 : DState) (now now2 now3 : Nat)
    (env env2 : Nat → AttemptOutcome)
    (hb : st0.cbBroken = false) (hz : st0.cbFailures = 0)
    (hpos : 0 < now) (hcool : now2 - now < cbResetTime)
    (helapsed : now + cbResetTime ≤ now3) :
    (recordNFailures st0 now cbThreshold).cbBroken = true ∧
    (recordNFailures st0 now cbThreshold).cbFailures = cbThreshold ∧
    downloadRawFile (recordNFailures st0 now cbThreshold) now2 env maxRetriesDefault =
      (0, recordNFailures st0 now cbThreshold, []) ∧
    netAttemptCount
      (downloadRawFile (recordNFailures st0 now cbThreshold) now2 env
        maxRetriesDefault).2.2 = 0 ∧
    checkCircuitBreaker (recordNFailures st0 now cbThreshold) now3 =
      (false, { recordNFailures st0 now cbThreshold with
                  cbBroken := false, cbFailures := 0 }) ∧
    1 ≤ netAttemptCount
      (downloadRawFile (recordNFailures st0 now cbThreshold) now3 env2
        maxRetriesDefault).2.2 := by
  have h5 := recordNFailures_five st0 now hb hz
  have hne : now ≠ 0 := by omega
  have hcool2 : ¬ cbResetTime ≤ now2 - now := by omega
  have helapsed2 : cbResetTime ≤ now3 - now := by omega
  rw [h5]
  have hck2 : checkCircuitBreaker
      { st0 with cbFailures := 5, cbLastFailure := some now, cbBroken := true } now2 =
      (true, { st0 with cbFailures := 5, cbLastFailure := some now, cbBroken := true }) := by
    unfold checkCircuitBreaker
    simp [hne, hcool2]
  have hdl2 : downloadRawFile
      { st0 with cbFailures := 5, cbLastFailure := some now, cbBroken := true } now2 env
      maxRetriesDefault =
      (0, { st0 with cbFailures := 5, cbLastFailure := some now, cbBroken := true }, []) := by
    unfold downloadRawFile
    rw [hck2]
    rfl
  have hck3 : checkCircuitBreaker
      { st0 with cbFailures := 5, cbLastFailure := some now, cbBroken := true } now3 =
      (false, { st0 with cbFailures := 0, cbLastFailure := some now, cbBroken := false }) := by
    unfold checkCircuitBreaker
    simp [hne, helapsed2]
  have hdl3 : downloadRawFile
      { st0 with cbFailures := 5, cbLastFailure := some now, cbBroken := true } now3 env2
      maxRetriesDefault =
      runAttempts env2 now3 maxRetriesDefault 0 maxRetriesDefault
        { st0 with cbFailures := 0, cbLastFailure := some now, cbBroken := false } [] := by
    unfold downloadRawFile
    rw [hck3]
    rfl
  refine ⟨rfl, rfl, hdl2, ?_, ?_, ?_⟩
  · rw [hdl2]
    rfl
  · rw [hck3]
  · rw [hdl3]
    obtain ⟨t, ht⟩ := runAttempts_net_first env2 now3 maxRetriesDefault 0
      maxRetriesDefault 2 rfl
      { st0 with cbFailures := 0, cbLastFailure := some now, cbBroken := false }
    rw [← ht]
    simp [netAttemptCount]

/-- C1 witness: a concrete run of the breaker lifecycle (5 failures at time
100, a skipped call at time 150, a reset check at time 500). -/
theorem C1_witness :
    (recordNFailures initState 100 cbThreshold).cbBroken = true ∧
    downloadRawFile (recordNFailures initState 100 cbThreshold) 150
      (fun _ => AttemptOutcome.httpErr 404) maxRetriesDefault =
      (0, recordNFailures initState 100 cbThreshold, []) ∧
    checkCircuitBreaker (recordNFailures initState 100 cbThreshold) 500 =
      (false, { recordNFailures initState 100 cbThreshold with
                  cbBroken := false, cbFailures := 0 }) := by
  have h := C1_circuit_breaker_lifecycle initState 100 150 500
    (fun _ => AttemptOutcome.httpErr 404) (fun _ => AttemptOutcome.httpErr 404)
    rfl rfl (by decide) (by decide) (by decide)
  exact ⟨h.1, h.2.2.1, h.2.2.2.2.1⟩

/-- C2 (amended): with the breaker closed, HTTP 403, 429 or 503 responses and
`URLError`s matching the TLS pattern on attempts 1 and 2 followed by success
on attempt 3 give exactly two sleeps of `5*2^0 = 5` and `5*2^1 = 10` seconds,
one recorded breaker failure per error, and return value 1; three such errors
exhaust the retry budget and return 0; but a generic exception whose message
matches the connection-reset pattern, while also recording a breaker failure
per error, backs off with the smaller `2^attempt` schedule (1 s then 2 s). -/
theorem C2_rate_limit_backoff (st : DState) (now : Nat) (env : Nat → AttemptOutcome)
    (nbytes : Nat) (o1 o2 o3 : AttemptOutcome)
    (hb : st.cbBroken = false)
    (h1 : rateLimitClassA o1) (h2 : rateLimitClassA o2)
    (henv0 : env 0 = o1) (henv1 : env 1 = o2) :
    (env 2 = AttemptOutcome.ok nbytes →
      (downloadRawFile st now env maxRetriesDefault).1 = 1 ∧
      sleepsOf (downloadRawFile st now env maxRetriesDefault).2.2 = [5, 10] ∧
      failRecordCount (downloadRawFile st now env maxRetriesDefault).2.2 = 2) ∧
    (rateLimitClassA o3 → env 2 = o3 →
      (downloadRawFile st now env maxRetriesDefault).1 = 0 ∧
      sleepsOf (downloadRawFile st now env maxRetriesDefault).2.2 = [5, 10] ∧
      failRecordCount (downloadRawFile st now env maxRetriesDefault).2.2 = 3) ∧
    (∀ env9 : Nat → AttemptOutcome, env9 0 = AttemptOutcome.exc true →
      env9 1 = AttemptOutcome.exc true → env9 2 = AttemptOutcome.ok nbytes →
      (downloadRawFile st now env9 maxRetriesDefault).1 = 1 ∧
      sleepsOf (downloadRawFile st now env9 maxRetriesDefault).2.2 = [1, 2] ∧
      failRecordCount (downloadRawFile st now env9 maxRetriesDefault).2.2 = 2) := by
  have hdl := downloadRawFile_closed st now env maxRetriesDefault hb
  refine ⟨?_, ?_, ?_⟩
  · intro henv2
    rw [hdl,
      runAttempts_rateLimit_step env now maxRetriesDefault 0 maxRetriesDefault 2 rfl
        st [] o1 h1 henv0 (by decide),
      runAttempts_rateLimit_step env now maxRetriesDefault (0 + 1) 2 1 rfl
        _ _ o2 h2 henv1 (by decide),
      runAttempts_ok env now maxRetriesDefault (0 + 1 + 1) 1 0 rfl _ _ nbytes henv2]
    refine ⟨rfl, ?_, ?_⟩
    · simp [sleepsOf]
    · simp [failRecordCount]
  · intro ho3 henv2
    rw [hdl,
      runAttempts_rateLimit_step env now maxRetriesDefault 0 maxRetriesDefault 2 rfl
        st [] o1 h1 henv0 (by decide),
      runAttempts_rateLimit_step env now maxRetriesDefault (0 + 1) 2 1 rfl
        _ _ o2 h2 henv1 (by decide),
      runAttempts_rateLimit_last env now maxRetriesDefault (0 + 1 + 1) 1 0 rfl
        _ _ o3 ho3 henv2 (by decide)]
    refine ⟨rfl, ?_, ?_⟩
    · simp [sleepsOf]
    · simp [failRecordCount]
  · intro env9 henv90 henv91 henv92
    have hdl9 := downloadRawFile_closed st now env9 maxRetriesDefault hb
    rw [hdl9,
      runAttempts_connReset_step env9 now maxRetriesDefault 0 maxRetriesDefault 2 rfl
        st [] henv90 (by decide),
      runAttempts_connReset_step env9 now maxRetriesDefault (0 + 1) 2 1 rfl
        _ _ henv91 (by decide),
      runAttempts_ok env9 now maxRetriesDefault (0 + 1 + 1) 1 0 rfl _ _ nbytes henv92]
    refine ⟨rfl, ?_, ?_⟩
    · simp [sleepsOf]
    · simp [failRecordCount]

/-- C2 witness: a 403 then a TLS-pattern `URLError` then success, from the
fresh dumper state, sleeps 5 s and 10 s and returns 1. -/
theorem C2_witness :
    (downloadRawFile initState 1000
      (fun n => if n = 0 then AttemptOutcome.httpErr 403
                else if n = 1 then AttemptOutcome.urlErr true
                else AttemptOutcome.ok 7) maxRetriesDefault).1 = 1 ∧
    sleepsOf (downloadRawFile initState 1000
      (fun n => if n = 0 then AttemptOutcome.httpErr 403
                else if n = 1 then AttemptOutcome.urlErr true
                else AttemptOutcome.ok 7) maxRetriesDefault).2.2 = [5, 10] ∧
    failRecordCount (downloadRawFile initState 1000
      (fun n => if n = 0 then AttemptOutcome.httpErr 403
                else if n = 1 then AttemptOutcome.urlErr true
                else AttemptOutcome.ok 7) maxRetriesDefault).2.2 = 2 :=
  (C2_rate_limit_backoff initState 1000
    (fun n => if n = 0 then AttemptOutcome.httpErr 403
              else if n = 1 then AttemptOutcome.urlErr true
              else AttemptOutcome.ok 7) 7
    (AttemptOutcome.httpErr 403) (AttemptOutcome.urlErr true)
    (AttemptOutcome.httpErr 429) rfl (Or.inl rfl)
    (Or.inr (Or.inr (Or.inr rfl))) rfl rfl).1 rfl

/-- C2 counterexample: a transport error whose message matches the
connection-reset pattern (a generic exception matching ssl/connection/reset,
e.g. "connection reset by peer") on attempts 1 and 2 followed by success on
attempt 3 is retried with sleeps of 1 s and 2 s (the `2 ** attempt`
schedule), not the 5 s and 10 s the claim asserts for every rate-limit-class
error, even though each such error does record a breaker failure. -/
theorem C2_counterexample :
    (downloadRawFile initState 1000
      (fun n => if n ≤ 1 then AttemptOutcome.exc true else AttemptOutcome.ok 7)
      maxRetriesDefault).1 = 1 ∧
    failRecordCount (downloadRawFile initState 1000
      (fun n => if n ≤ 1 then AttemptOutcome.exc true else AttemptOutcome.ok 7)
      maxRetriesDefault).2.2 = 2 ∧
    sleepsOf (downloadRawFile initState 1000
      (fun n => if n ≤ 1 then AttemptOutcome.exc true else AttemptOutcome.ok 7)
      maxRetriesDefault).2.2 = [1, 2] ∧
    sleepsOf (downloadRawFile initState 1000
      (fun n => if n ≤ 1 then AttemptOutcome.exc true else AttemptOutcome.ok 7)
      maxRetriesDefault).2.2 ≠ [5, 10] := by
  decide

/-- C3: a 404 response makes `_download_raw_file` return 0 at once, with the
separate not-found counter incremented, no retry (a single network attempt),
no sleep, and no change to the circuit-breaker failure counter. -/
theorem C3_not_found_no_retry (st : DState) (now : Nat) (env : Nat → AttemptOutcome)
    (hb : st.cbBroken = false) (henv : env 0 = AttemptOutcome.httpErr 404) :
    (downloadRawFile st now env maxRetriesDefault).1 = 0 ∧
    (downloadRawFile st now env maxRetriesDefault).2.1.notFoundRequests =
      st.notFoundRequests + 1 ∧
    (downloadRawFile st now env maxRetriesDefault).2.1.cbFailures = st.cbFailures ∧
    (downloadRawFile st now env maxRetriesDefault).2.1.cbBroken = false ∧
    (downloadRawFile st now env maxRetriesDefault).2.1.failedRequests =
      st.failedRequests ∧
    netAttemptCount (downloadRawFile st now env maxRetriesDefault).2.2 = 1 ∧
    sleepsOf (downloadRawFile st now env maxRetriesDefault).2.2 = [] ∧
    failRecordCount (downloadRawFile st now env maxRetriesDefault).2.2 = 0 := by
  have hdl := downloadRawFile_closed st now env maxRetriesDefault hb
  have e1 := runAttempts_404 env now maxRetriesDefault 0 maxRetriesDefault 2 rfl
    st [] henv
  rw [hdl, e1]
  refine ⟨rfl, ?_, ?_, ?_, ?_, rfl, rfl, rfl⟩ <;>
    simp [decActive, enterAttempt, hb]

/-- C3 witness: the 404 behaviour evaluated from the fresh dumper state. -/
theorem C3_witness :
    (downloadRawFile initState 77 (fun _ => AttemptOutcome.httpErr 404)
      maxRetriesDefault).1 = 0 ∧
    (downloadRawFile initState 77 (fun _ => AttemptOutcome.httpErr 404)
      maxRetriesDefault).2.1.notFoundRequests = initState.notFoundRequests + 1 ∧
    (downloadRawFile initState 77 (fun _ => AttemptOutcome.httpErr 404)
      maxRetriesDefault).2.1.cbFailures = initState.cbFailures ∧
    netAttemptCount (downloadRawFile initState 77
      (fun _ => AttemptOutcome.httpErr 404) maxRetriesDefault).2.2 = 1 := by
  have h := C3_not_found_no_retry initState 77 (fun _ => AttemptOutcome.httpErr 404)
    rfl rfl
  exact ⟨h.1, h.2.1, h.2.2.1, h.2.2.2.2.2.1⟩

/-- C4: an HTTP 418 (ban signal) makes `_download_raw_file` return 0 with no
retry and no sleep, and forces the circuit breaker open immediately, setting
the failure counter to the threshold regardless of its current value. -/
theorem C4_ban_forces_breaker_open (st : DState) (now : Nat)
    (env : Nat → AttemptOutcome)
    (hb : st.cbBroken = false) (henv : env 0 = AttemptOutcome.httpErr 418) :
    (downloadRawFile st now env maxRetriesDefault).1 = 0 ∧
    (downloadRawFile st now env maxRetriesDefault).2.1.cbBroken = true ∧
    (downloadRawFile st now env maxRetriesDefault).2.1.cbFailures = cbThreshold ∧
    (downloadRawFile st now env maxRetriesDefault).2.1.failedRequests =
      st.failedRequests + 1 ∧
    netAttemptCount (downloadRawFile st now env maxRetriesDefault).2.2 = 1 ∧
    sleepsOf (downloadRawFile st now env maxRetriesDefault).2.2 = [] := by
  have hdl := downloadRawFile_closed st now env maxRetriesDefault hb
  have e1 := runAttempts_418 env now maxRetriesDefault 0 maxRetriesDefault 2 rfl
    st [] henv
  rw [hdl, e1]
  refine ⟨rfl, rfl, rfl, ?_, rfl, rfl⟩
  simp [addFailed, recordDownloadFailure_failedRequests, decActive, enterAttempt]

/-- C4 witness: the 418 behaviour evaluated from a state that already has two
recorded consecutive failures (the breaker opens regardless of the count). -/
theorem C4_witness :
    (downloadRawFile (recordNFailures initState 50 2) 77
      (fun _ => AttemptOutcome.httpErr 418) maxRetriesDefault).1 = 0 ∧
    (downloadRawFile (recordNFailures initState 50 2) 77
      (fun _ => AttemptOutcome.httpErr 418) maxRetriesDefault).2.1.cbBroken = true ∧
    (downloadRawFile (recordNFailures initState 50 2) 77
      (fun _ => AttemptOutcome.httpErr 418) maxRetriesDefault).2.1.cbFailures =
      cbThreshold := by
  have h := C4_ban_forces_breaker_open (recordNFailures initState 50 2) 77
    (fun _ => AttemptOutcome.httpErr 418) (by decide) rfl
  exact ⟨h.1, h.2.1, h.2.2.1⟩

/-- C8 counterexample: for a swapped range (`date_start` strictly after
`date_end`) the planner returns normally with the empty sequence; the code
raises no error at all (there is no InvalidRange anywhere in it), refuting
the claim that it "fails with an InvalidRange error rather than returning a
sequence". -/
theorem C8_counterexample :
    createListDates ⟨2023, 1, 2⟩ ⟨2023, 1, 1⟩ true = ([] : List Date) ∧
    createListDates ⟨2023, 1, 2⟩ ⟨2023, 1, 1⟩ false = ([] : List Date) := by
  decide

/-- C8 (amended): for every pair of dates with `date_start` strictly after
`date_end`, `_create_list_dates_for_timeperiod` returns the empty sequence
(the `while` loop body never runs); no error is raised. -/
theorem C8_swapped_range_empty (s e : Date) (monthly : Bool) (h : e < s) :
    createListDates s e monthly = [] :=
  createListDates_nil monthly (Date.not_le.mpr h)

/-- C8 witness: a concrete swapped range yielding the empty plan. -/
theorem C8_witness : createListDates ⟨2024, 5, 9⟩ ⟨2024, 5, 8⟩ false = [] :=
  C8_swapped_range_empty ⟨2024, 5, 9⟩ ⟨2024, 5, 8⟩ false (by decide)

/-- C9 counterexample: the monthly planner is not anchored to the 1st of
each month; starting from 2023-01-15 it keeps the 15th as the day of every
element. -/
theorem C9_counterexample :
    createListDates ⟨2023, 1, 15⟩ ⟨2023, 3, 20⟩ true =
      [⟨2023, 1, 15⟩, ⟨2023, 2, 15⟩, ⟨2023, 3, 15⟩] ∧
    (∃ x ∈ createListDates ⟨2023, 1, 15⟩ ⟨2023, 3, 20⟩ true, x.d ≠ 1) := by
  decide

/-- C9 (amended): for valid `dateStart ≤ dateEnd` the planner returns the
strictly increasing sequence that starts at `dateStart` and steps by one
calendar month (monthly) or one calendar day (daily), keeping every iterate
that is at most `dateEnd` — so the monthly sequence stays anchored to
`dateStart`'s day of month (clamped at short months), and is anchored to the
1st only when `dateStart` is a 1st; the claim's example
`plan(2023-01-01, 2023-03-01, monthly)` holds. -/
theorem C9_planner_characterization (s e : Date) (monthly : Bool)
    (hs : s.valid) (he : e.valid) :
    (¬ s ≤ e → createListDates s e monthly = []) ∧
    (s ≤ e → (createListDates s e monthly).head? = some s) ∧
    (∀ x ∈ createListDates s e monthly, s ≤ x ∧ x ≤ e ∧ x.valid) ∧
    List.Chain' (fun a b => b = stepDate monthly a) (createListDates s e monthly) ∧
    List.Chain' (fun a b => a < b) (createListDates s e monthly) ∧
    (∀ l, (createListDates s e monthly).getLast? = some l →
      ¬ stepDate monthly l ≤ e) ∧
    createListDates ⟨2023, 1, 1⟩ ⟨2023, 3, 1⟩ true =
      [⟨2023, 1, 1⟩, ⟨2023, 2, 1⟩, ⟨2023, 3, 1⟩] ∧
    createListDates ⟨2023, 2, 27⟩ ⟨2023, 3, 2⟩ false =
      [⟨2023, 2, 27⟩, ⟨2023, 2, 28⟩, ⟨2023, 3, 1⟩, ⟨2023, 3, 2⟩] := by
  obtain ⟨a, b, c, d, e1, f⟩ := createListDates_spec s e monthly hs he
  exact ⟨a, b, c, d, e1, f, by decide, by decide⟩

/-- C9 witness: the planner characterization applied to the example range. -/
theorem C9_witness :
    (createListDates ⟨2023, 1, 1⟩ ⟨2023, 3, 1⟩ true).head? = some ⟨2023, 1, 1⟩ ∧
    createListDates ⟨2023, 1, 1⟩ ⟨2023, 3, 1⟩ true =
      [⟨2023, 1, 1⟩, ⟨2023, 2, 1⟩, ⟨2023, 3, 1⟩] := by
  have h := C9_planner_characterization ⟨2023, 1, 1⟩ ⟨2023, 3, 1⟩ true
    (by decide) (by decide)
  exact ⟨h.2.1 (by decide), h.2.2.2.2.2.2.1⟩

/-- C10: for every data type outside the kline family the constructor skips
the frequency-enum validation (any `data_frequency` value is accepted),
stores the empty frequency, and every generated filename embeds the data
type, not the supplied frequency. -/
theorem C10_frequency_validation_skipped
    (assetClass dataType dataFrequency : String) (maxConcurrent : Option Nat)
    (h1 : assetClass ∈ assetClassesAll)
    (h2 : dataType ∈ dataTypesByAsset assetClass)
    (h3 : dataType ∉ dataFrequencyNeededForType) :
    ∃ cfg, initDumper assetClass dataType dataFrequency maxConcurrent =
        Except.ok cfg ∧
      cfg.dataFrequency = "" ∧ cfg.dataType = dataType ∧
      (∀ ticker dateObj monthly extension,
        createFilename cfg ticker dateObj monthly extension =
          ticker ++ "-" ++ dataType ++ "-" ++
            (if monthly then fmtYM dateObj else fmtYMD dateObj) ++ "." ++
            extension) := by
  have hc1 : ¬ assetClass ∉ assetClassesAll := not_not_intro h1
  have hc2 : ¬ dataType ∉ dataTypesByAsset assetClass := not_not_intro h2
  have hc3 : ¬ (dataType ∈ dataFrequencyNeededForType ∧
      dataFrequency ∉ dataFrequencyEnum) := fun h => h3 h.1
  refine ⟨⟨assetClass, dataType, "",
    match maxConcurrent with
    | none => if dataType = "trades" then 1 else 5
    | some n => n⟩, ?_, rfl, rfl, ?_⟩
  · unfold initDumper
    rw [if_neg hc1, if_neg hc2, if_neg hc3, if_neg h3]
  · intro ticker dateObj monthly extension
    unfold createFilename
    simp

/-- C10 witness: `fundingRate` with a nonsense frequency is accepted and the
filename embeds `fundingRate`. -/
theorem C10_witness :
    ∃ cfg, initDumper "um" "fundingRate" "not-a-frequency" none = Except.ok cfg ∧
      cfg.dataFrequency = "" ∧ cfg.dataType = "fundingRate" ∧
      (∀ ticker dateObj monthly extension,
        createFilename cfg ticker dateObj monthly extension =
          ticker ++ "-" ++ "fundingRate" ++ "-" ++
            (if monthly then fmtYM dateObj else fmtYMD dateObj) ++ "." ++
            extension) :=
  C10_frequency_validation_skipped "um" "fundingRate" "not-a-frequency" none
    (by decide) (by decide) (by decide)

/-- C5 counterexample: with a mid-month monthly start (2017-01-15), a first
run saves every planned date, yet the second run's pending set equals the
whole plan again: the inventory listing enumerates month-start dates
(2017-01-01, 2017-02-01, ...), the saved files (named only by year-month)
are attributed to those dates, and the subtraction compares dates by
equality, so nothing is subtracted and every file is re-fetched. -/
theorem C5_counterexample :
    pendingDates ⟨"spot", "klines", "1m", 5⟩ ⟨2017, 4, 10⟩
      (savedFiles ⟨"spot", "klines", "1m", 5⟩ "BTCUSDT"
        (createListDates ⟨2017, 1, 15⟩ ⟨2017, 2, 15⟩ true) true)
      "BTCUSDT" ⟨2017, 1, 1⟩ ⟨2017, 1, 15⟩ ⟨2017, 2, 15⟩ true false =
      [⟨2017, 1, 15⟩, ⟨2017, 2, 15⟩] ∧
    pendingDates ⟨"spot", "klines", "1m", 5⟩ ⟨2017, 4, 10⟩
      (savedFiles ⟨"spot", "klines", "1m", 5⟩ "BTCUSDT"
        (createListDates ⟨2017, 1, 15⟩ ⟨2017, 2, 15⟩ true) true)
      "BTCUSDT" ⟨2017, 1, 1⟩ ⟨2017, 1, 15⟩ ⟨2017, 2, 15⟩ true false ≠ [] := by
  decide

/-- C5 (amended): after a run that saved every planned date, a second run
with `is_to_update_existing = false` has an empty pending set provided every
planned date itself occurs in the inventory enumeration grid (the dates
stepped from 2017-01-01 up to today at the same granularity) — which holds
for daily granularity and for month-start-aligned monthly plans, the only
plans `dump_data` produces from a month-start `date_start`; for mid-month
monthly starts the subtraction removes nothing (see the counterexample). -/
theorem C5_second_run_pending_empty (cfg : DumperConfig) (today : Date)
    (files0 : List String) (ticker : String)
    (minStartDate dateStart dateEnd : Date) (monthly : Bool)
    (hgrid : ∀ p ∈ createListDates
        (if dateStart < minStartDate then minStartDate else dateStart)
        dateEnd monthly,
      p ∈ createListDates ⟨2017, 1, 1⟩ today monthly) :
    pendingDates cfg today
      (savedFiles cfg ticker
        (createListDates
          (if dateStart < minStartDate then minStartDate else dateStart)
          dateEnd monthly) monthly ++ files0)
      ticker minStartDate dateStart dateEnd monthly false = [] := by
  unfold pendingDates
  simp only [Bool.false_eq_true, if_false]
  rw [List.filter_eq_nil_iff]
  intro p hp
  simp only [decide_eq_true_iff, Decidable.not_not, Bool.not_eq_true]
  have hmem : p ∈ getAllDatesWithData cfg today
      (savedFiles cfg ticker
        (createListDates
          (if dateStart < minStartDate then minStartDate else dateStart)
          dateEnd monthly) monthly ++ files0) ticker monthly := by
    unfold getAllDatesWithData
    rw [List.mem_filter]
    refine ⟨hgrid p hp, ?_⟩
    rw [decide_eq_true_iff]
    exact List.mem_append_left _
      (List.mem_map_of_mem (fun dateObj => createFilename cfg ticker dateObj monthly "csv") hp)
  simp [hmem]

/-- C5 witness: an aligned monthly run (2017-01-01 to 2017-02-28) whose
second pass has nothing left to fetch. -/
theorem C5_witness :
    pendingDates ⟨"spot", "klines", "1m", 5⟩ ⟨2017, 4, 10⟩
      (savedFiles ⟨"spot", "klines", "1m", 5⟩ "BTCUSDT"
        (createListDates ⟨2017, 1, 1⟩ ⟨2017, 2, 28⟩ true) true ++ [])
      "BTCUSDT" ⟨2017, 1, 1⟩ ⟨2017, 1, 1⟩ ⟨2017, 2, 28⟩ true false = [] := by
  have h := C5_second_run_pending_empty ⟨"spot", "klines", "1m", 5⟩ ⟨2017, 4, 10⟩
    [] "BTCUSDT" ⟨2017, 1, 1⟩ ⟨2017, 1, 1⟩ ⟨2017, 2, 28⟩ true (by decide)
  simpa using h

theorem Date.eq_iff {a b : Date} : a = b ↔ a.y = b.y ∧ a.m = b.m ∧ a.d = b.d := by
  cases a; cases b; simp

theorem Date.lt_of_le_of_ne {a b : Date} (h1 : a ≤ b) (h2 : ¬ a = b) : a < b := by
  rw [Date.eq_iff] at h2
  rw [Date.le_def] at h1
  rw [Date.lt_def]
  omega

/-- A valid date is strictly before the first of `e`'s month exactly when it
is at most the day before that first (the last day of the previous month). -/
theorem lt_firstOfMonth_iff {x e : Date} (hx : x.valid) (he : e.valid) :
    x < ⟨e.y, e.m, 1⟩ ↔ x ≤ predDay ⟨e.y, e.m, 1⟩ := by
  obtain ⟨hx1, hx2, hx3, hx4, hx5⟩ := hx
  obtain ⟨he1, he2, he3, he4, he5⟩ := he
  have hxd := daysInMonth_le x.y x.m
  unfold predDay
  dsimp only
  rw [if_neg (by omega)]
  by_cases hm : 1 < e.m
  · rw [if_pos hm]
    have hb1 := daysInMonth_pos e.y (e.m - 1)
    have hb2 := daysInMonth_le e.y (e.m - 1)
    by_cases hxy : x.y = e.y
    · by_cases hxm : x.m = e.m - 1
      · have hlink : daysInMonth e.y (e.m - 1) = daysInMonth x.y x.m := by
          rw [hxy, hxm]
        rw [Date.lt_def, Date.le_def]
        dsimp only
        omega
      · rw [Date.lt_def, Date.le_def]
        dsimp only
        omega
    · rw [Date.lt_def, Date.le_def]
      dsimp only
      omega
  · rw [if_neg hm]
    rw [Date.lt_def, Date.le_def]
    dsimp only
    omega

/-- C6 counterexample: with `date_start` = 2023-02-28 and `date_end` =
2023-03-15 (a non-"metrics" data type), the monthly pass is skipped because
the code requires `boundary - 1 day` to be strictly after `date_start`, and
the daily pass starts at the boundary 2023-03-01 — so the in-range date
2023-02-28, although strictly before the boundary, is planned in neither
granularity pass. -/
theorem C6_counterexample :
    (⟨2023, 2, 28⟩ : Date) ≤ ⟨2023, 2, 28⟩ ∧
    (⟨2023, 2, 28⟩ : Date) ≤ ⟨2023, 3, 15⟩ ∧
    (⟨2023, 2, 28⟩ : Date) < ⟨2023, 3, 1⟩ ∧
    ¬ inMonthlyPass "klines" ⟨2023, 2, 28⟩ ⟨2023, 3, 15⟩ ⟨2023, 2, 28⟩ ∧
    ¬ inDailyPass "klines" ⟨2023, 2, 28⟩ ⟨2023, 3, 15⟩ ⟨2023, 2, 28⟩ := by
  refine ⟨by decide, by decide, by decide, ?_, by decide⟩
  rw [show (inMonthlyPass "klines" ⟨2023, 2, 28⟩ ⟨2023, 3, 15⟩ ⟨2023, 2, 28⟩) =
      (inMonthlyPassB "klines" ⟨2023, 2, 28⟩ ⟨2023, 3, 15⟩ ⟨2023, 2, 28⟩ = true) from ?_]
  · decide
  · unfold inMonthlyPass inMonthlyPassB
    cases monthlyPassRange "klines" ⟨2023, 2, 28⟩ ⟨2023, 3, 15⟩ <;> simp

/-- C6 (amended): for the clamped interval `[dateStart, dateEnd]` split at
the first day of `dateEnd`'s month, every in-range date belongs to exactly
one granularity pass — entirely daily for the "metrics" data type, otherwise
monthly strictly before the boundary and daily from the boundary on —
except in the single degenerate configuration where `dateStart` equals the
day before the boundary: there the monthly pass is skipped (the code
requires `boundary - 1 day > dateStart` strictly) and `dateStart` itself
falls in neither pass. -/
theorem C6_split_exactly_one (dataType : String) (s e d : Date)
    (hs : s.valid) (he : e.valid) (hd : d.valid)
    (hsd : s ≤ d) (hde : d ≤ e)
    (hexc : dataType = "metrics" ∨ ¬ s = predDay ⟨e.y, e.m, 1⟩) :
    (dataType = "metrics" →
      inDailyPass dataType s e d ∧ ¬ inMonthlyPass dataType s e d) ∧
    (¬ dataType = "metrics" →
      (d < ⟨e.y, e.m, 1⟩ →
        inMonthlyPass dataType s e d ∧ ¬ inDailyPass dataType s e d) ∧
      (Date.le ⟨e.y, e.m, 1⟩ d →
        inDailyPass dataType s e d ∧ ¬ inMonthlyPass dataType s e d)) ∧
    (inMonthlyPass dataType s e d ∨ inDailyPass dataType s e d) ∧
    ¬ (inMonthlyPass dataType s e d ∧ inDailyPass dataType s e d) := by
  by_cases hmet : dataType = "metrics"
  · have hnone : monthlyPassRange dataType s e = none := by
      unfold monthlyPassRange
      rw [if_neg]
      intro hcontra
      exact hcontra.1 hmet
    have hdr : dailyPassRange dataType s e = (s, e) := by
      unfold dailyPassRange
      rw [if_pos hmet]
    have hday : inDailyPass dataType s e d := by
      unfold inDailyPass
      rw [hdr]
      exact ⟨hsd, hde⟩
    have hnotm : ¬ inMonthlyPass dataType s e d := by
      unfold inMonthlyPass
      rw [hnone]
      exact fun h => h
    exact ⟨fun _ => ⟨hday, hnotm⟩, fun h => absurd hmet h,
      Or.inr hday, fun h => hnotm h.1⟩
  · have hne : ¬ s = predDay ⟨e.y, e.m, 1⟩ := hexc.resolve_left hmet
    have hdr : dailyPassRange dataType s e = (⟨e.y, e.m, 1⟩, e) := by
      unfold dailyPassRange
      rw [if_neg hmet]
    by_cases hlt : s < predDay ⟨e.y, e.m, 1⟩
    · have hsome : monthlyPassRange dataType s e =
          some (s, predDay ⟨e.y, e.m, 1⟩) := by
        unfold monthlyPassRange
        rw [if_pos ⟨hmet, hlt⟩]
      have hcases : ∀ x : Date, x.valid → s ≤ x → x ≤ e →
          (x < ⟨e.y, e.m, 1⟩ →
            inMonthlyPass dataType s e x ∧ ¬ inDailyPass dataType s e x) ∧
          (Date.le ⟨e.y, e.m, 1⟩ x →
            inDailyPass dataType s e x ∧ ¬ inMonthlyPass dataType s e x) := by
        intro x hxv hsx hxe
        constructor
        · intro hxb
          constructor
          · unfold inMonthlyPass
            rw [hsome]
            exact ⟨hsx, (lt_firstOfMonth_iff hxv he).mp hxb⟩
          · unfold inDailyPass
            rw [hdr]
            intro hcontra
            exact absurd hxb (Date.not_lt.mpr hcontra.1)
        · intro hbx
          constructor
          · unfold inDailyPass
            rw [hdr]
            exact ⟨hbx, hxe⟩
          · unfold inMonthlyPass
            rw [hsome]
            intro hcontra
            have := (lt_firstOfMonth_iff hxv he).mpr hcontra.2
            exact absurd hbx (Date.not_le.mpr this)
      have hmain := hcases d hd hsd hde
      rcases Date.lt_or_ge d ⟨e.y, e.m, 1⟩ with hdb | hdb
      · obtain ⟨h1, h2⟩ := hmain.1 hdb
        exact ⟨fun h => absurd h hmet, fun _ => hmain,
          Or.inl h1, fun h => h2 h.2⟩
      · obtain ⟨h1, h2⟩ := hmain.2 hdb
        exact ⟨fun h => absurd h hmet, fun _ => hmain,
          Or.inr h1, fun h => h2 h.1⟩
    · have hps : predDay ⟨e.y, e.m, 1⟩ < s :=
        Date.lt_of_le_of_ne (Date.not_lt.mp hlt) (fun h => hne h.symm)
      have hbs : Date.le ⟨e.y, e.m, 1⟩ s := by
        by_contra hcontra
        have hsb : s < ⟨e.y, e.m, 1⟩ := Date.not_le.mp hcontra
        have := (lt_firstOfMonth_iff hs he).mp hsb
        exact absurd this (Date.not_le.mpr hps)
      have hnone : monthlyPassRange dataType s e = none := by
        unfold monthlyPassRange
        rw [if_neg]
        intro hcontra
        exact hlt hcontra.2
      have hnotm : ¬ inMonthlyPass dataType s e d := by
        unfold inMonthlyPass
        rw [hnone]
        exact fun h => h
      have hbd : Date.le ⟨e.y, e.m, 1⟩ d := Date.le_trans hbs hsd
      have hday : inDailyPass dataType s e d := by
        unfold inDailyPass
        rw [hdr]
        exact ⟨hbd, hde⟩
      refine ⟨fun h => absurd h hmet, fun _ => ⟨?_, fun _ => ⟨hday, hnotm⟩⟩,
        Or.inr hday, fun h => hnotm h.1⟩
      intro hdb
      exact absurd hbd (Date.not_le.mpr hdb)

/-- C6 witness: a non-degenerate split (start 2023-01-05, end 2023-03-15):
the date 2023-02-10 is before the boundary and lands exactly in the monthly
pass. -/
theorem C6_witness :
    inMonthlyPass "klines" ⟨2023, 1, 5⟩ ⟨2023, 3, 15⟩ ⟨2023, 2, 10⟩ ∧
    ¬ inDailyPass "klines" ⟨2023, 1, 5⟩ ⟨2023, 3, 15⟩ ⟨2023, 2, 10⟩ := by
  have h := C6_split_exactly_one "klines" ⟨2023, 1, 5⟩ ⟨2023, 3, 15⟩ ⟨2023, 2, 10⟩
    (by decide) (by decide) (by decide) (by decide) (by decide)
    (Or.inr (by decide))
  exact (h.2.1 (by decide)).1 (by decide)

theorem Date.le_antisymm {a b : Date} (h1 : a ≤ b) (h2 : b ≤ a) : a = b := by
  rw [Date.le_def] at h1 h2
  rw [Date.eq_iff]
  omega

theorem Date.lt_of_le_of_lt {a b c : Date} (h1 : a ≤ b) (h2 : b < c) : a < c := by
  rw [Date.le_def] at h1
  rw [Date.lt_def] at h2 ⊢
  omega

theorem foldMin_spec (l : List Date) : ∀ a : Date,
    (foldMin a l = a ∨ foldMin a l ∈ l) ∧ foldMin a l ≤ a ∧
      ∀ x ∈ l, foldMin a l ≤ x := by
  induction l with
  | nil =>
    intro a
    exact ⟨Or.inl rfl, Date.le_refl a, by simp⟩
  | cons x t ih =>
    intro a
    have hstep : foldMin a (x :: t) = foldMin (if x < a then x else a) t := rfl
    by_cases hxa : x < a
    · rw [hstep, if_pos hxa]
      obtain ⟨m1, m2, m3⟩ := ih x
      refine ⟨?_, Date.le_of_le_of_lt m2 hxa, ?_⟩
      · rcases m1 with h | h
        · exact Or.inr (by simp [h])
        · exact Or.inr (List.mem_cons_of_mem _ h)
      · intro y hy
        rcases List.mem_cons.mp hy with h | h
        · subst h; exact m2
        · exact m3 y h
    · rw [hstep, if_neg hxa]
      obtain ⟨m1, m2, m3⟩ := ih a
      refine ⟨?_, m2, ?_⟩
      · rcases m1 with h | h
        · exact Or.inl h
        · exact Or.inr (List.mem_cons_of_mem _ h)
      · intro y hy
        rcases List.mem_cons.mp hy with h | h
        · subst h; exact Date.le_trans m2 (Date.not_lt.mp hxa)
        · exact m3 y h

theorem foldMinFound_snd (l : List Date) : ∀ (b : Bool) (a : Date),
    (l.foldl (fun acc dateObj => if dateObj < acc.2 then (true, dateObj) else acc)
      (b, a)).2 = foldMin a l := by
  induction l with
  | nil => intro b a; rfl
  | cons x t ih =>
    intro b a
    by_cases h : x < a
    · simp only [List.foldl_cons, foldMin, if_pos h]
      exact ih true x
    · simp only [List.foldl_cons, foldMin, if_neg h]
      exact ih b a

theorem foldMinFound_fst (l : List Date) : ∀ (b : Bool) (a : Date),
    (l.foldl (fun acc dateObj => if dateObj < acc.2 then (true, dateObj) else acc)
      (b, a)).1 = (b || decide (∃ x ∈ l, x < a)) := by
  induction l with
  | nil => intro b a; simp
  | cons x t ih =>
    intro b a
    by_cases h : x < a
    · simp only [List.foldl_cons, if_pos h]
      rw [ih true x]
      simp [h]
    · simp only [List.foldl_cons, if_neg h]
      rw [ih b a]
      have hiff : (∃ y ∈ x :: t, y < a) ↔ (∃ y ∈ t, y < a) := by
        constructor
        · rintro ⟨y, hy, hya⟩
          rcases List.mem_cons.mp hy with rfl | hyt
          · exact absurd hya h
          · exact ⟨y, hyt, hya⟩
        · rintro ⟨y, hy, hya⟩
          exact ⟨y, List.mem_cons_of_mem _ hy, hya⟩
      simp [hiff, h]

/-- C7 counterexample: with no remote monthly and no remote daily object (or
a failing catalog query), `get_min_start_date_for_ticker` returns the first
day of the current month, not "today": on 2026-10-12 it returns 2026-10-01. -/
theorem C7_counterexample :
    getMinStartDateForTicker ⟨2026, 10, 12⟩ (Except.ok []) (Except.ok []) =
      ⟨2026, 10, 1⟩ ∧
    getMinStartDateForTicker ⟨2026, 10, 12⟩ (Except.error ()) (Except.error ()) =
      ⟨2026, 10, 1⟩ ∧
    (⟨2026, 10, 1⟩ : Date) ≠ ⟨2026, 10, 12⟩ := by
  decide

/-- C7 (amended): the remote floor query returns the earliest monthly date
when one is strictly before the first day of the current month (the initial
running minimum); otherwise it falls back to the daily listing, returning
the minimum of that sentinel and the daily dates; and when neither listing
has anything earlier — or the catalog query raises — it returns the first
day of the current month (not "today") as the sentinel. -/
theorem C7_remote_floor_characterization (today : Date) (ms ds : List Date) :
    (∀ dl, getMinStartDateForTicker today (Except.error ()) dl =
      firstOfMonth today) ∧
    ((∃ x ∈ ms, x < firstOfMonth today) →
      ∀ dl, getMinStartDateForTicker today (Except.ok ms) dl ∈ ms ∧
        getMinStartDateForTicker today (Except.ok ms) dl < firstOfMonth today ∧
        ∀ x ∈ ms, getMinStartDateForTicker today (Except.ok ms) dl ≤ x) ∧
    ((¬ ∃ x ∈ ms, x < firstOfMonth today) →
      getMinStartDateForTicker today (Except.ok ms) (Except.error ()) =
        firstOfMonth today ∧
      ((getMinStartDateForTicker today (Except.ok ms) (Except.ok ds) =
          firstOfMonth today ∨
        getMinStartDateForTicker today (Except.ok ms) (Except.ok ds) ∈ ds) ∧
       getMinStartDateForTicker today (Except.ok ms) (Except.ok ds) ≤
         firstOfMonth today ∧
       ∀ x ∈ ds, getMinStartDateForTicker today (Except.ok ms) (Except.ok ds) ≤ x)) := by
  have hfst := foldMinFound_fst ms false (firstOfMonth today)
  have hsnd := foldMinFound_snd ms false (firstOfMonth today)
  have hok : ∀ dl, getMinStartDateForTicker today (Except.ok ms) dl =
      (if (foldMinFound (firstOfMonth today) ms).1 then
        (foldMinFound (firstOfMonth today) ms).2
      else match dl with
        | Except.error _ => (foldMinFound (firstOfMonth today) ms).2
        | Except.ok ds1 => foldMin (foldMinFound (firstOfMonth today) ms).2 ds1) := by
    intro dl
    rfl
  refine ⟨fun dl => rfl, ?_, ?_⟩
  · intro hfound dl
    have hb : (foldMinFound (firstOfMonth today) ms).1 = true := by
      unfold foldMinFound
      rw [hfst]
      simp [hfound]
    rw [hok dl, if_pos hb]
    unfold foldMinFound
    rw [hsnd]
    obtain ⟨m1, m2, m3⟩ := foldMin_spec ms (firstOfMonth today)
    obtain ⟨x, hxmem, hxlt⟩ := hfound
    have hlt : foldMin (firstOfMonth today) ms < firstOfMonth today :=
      Date.lt_of_le_of_lt (m3 x hxmem) hxlt
    refine ⟨?_, hlt, m3⟩
    rcases m1 with h | h
    · exact absurd (h ▸ hlt) (Date.lt_irrefl _)
    · exact h
  · intro hnotfound
    have hb : (foldMinFound (firstOfMonth today) ms).1 = false := by
      unfold foldMinFound
      rw [hfst]
      simp
      intro x hx
      exact fun hlt => hnotfound ⟨x, hx, hlt⟩
    have hmin : (foldMinFound (firstOfMonth today) ms).2 = firstOfMonth today := by
      unfold foldMinFound
      rw [hsnd]
      obtain ⟨m1, m2, m3⟩ := foldMin_spec ms (firstOfMonth today)
      rcases m1 with h | h
      · exact h
      · refine Date.le_antisymm m2 ?_
        by_contra hcontra
        exact hnotfound ⟨_, h, Date.not_le.mp hcontra⟩
    constructor
    · rw [hok (Except.error ()), if_neg (by rw [hb]; exact Bool.false_ne_true)]
      exact hmin
    · rw [hok (Except.ok ds), if_neg (by rw [hb]; exact Bool.false_ne_true)]
      rw [hmin]
      obtain ⟨m1, m2, m3⟩ := foldMin_spec ds (firstOfMonth today)
      exact ⟨m1, m2, m3⟩

/-- C7 witness: with a remote monthly object at 2020-05-01 the floor query
returns that date (it is in the listing, before the sentinel, and minimal). -/
theorem C7_witness :
    getMinStartDateForTicker ⟨2026, 10, 12⟩ (Except.ok [⟨2020, 5, 1⟩])
      (Except.ok []) ∈ [(⟨2020, 5, 1⟩ : Date)] ∧
    getMinStartDateForTicker ⟨2026, 10, 12⟩ (Except.ok [⟨2020, 5, 1⟩])
      (Except.ok []) < firstOfMonth ⟨2026, 10, 12⟩ := by
  have h := (C7_remote_floor_characterization ⟨2026, 10, 12⟩ [⟨2020, 5, 1⟩] []).2.1
    ⟨⟨2020, 5, 1⟩, by decide, by decide⟩ (Except.ok [])
  exact ⟨h.1, h.2.1⟩

end BinanceDump
